import Mathlib

/-!
Verification of the batch-processing pipeline of `autocad_batchjobber`
(`src/batchjobber/pipeline.py`, `src/main.py`) against its specification.

The embedding abstracts the external collaborators exactly as the code
consumes them:

* the dwl-file open check (`DrawingProcessor.check_open`) becomes a
  predicate `isOpen : String → Bool`;
* the external xref check shelled out by `DrawingProcessor.check_drawing`
  becomes `check : String → CheckResult`, where `CheckResult.indeterminate`
  is the regex-no-match case (the console output was unparseable) and
  `CheckResult.xrefCount n` is a parsed `Total Xref(s): n` line;
* the external build action run by `Builder.build_drawing` becomes an exit
  status `exitCode : String → Nat` (`subprocess.check_call` raises
  `CalledProcessError` whenever this is nonzero);
* callbacks are modelled as events in an emitted trace, with Booleans
  recording whether each optional callback was supplied and `errorArity`
  recording how many parameters the supplied error callback takes (the GUI
  in `src/batchjobber/gui.py` registers a one-parameter lambda).

Concurrency is modelled at the level the code's own synchronisation
exposes: the controller emits a deterministic sequence of queue operations
and callback invocations (`processTrace`); the build workers are modelled
by the dequeue sequence each one observed (`builderRun`), and
`build_queue.join()` returns exactly when the summed `task_done` count
reaches the number of queue puts (`acksOf`, `validFinal`).
-/

namespace Batchjobber

/-- Rejection reasons the pipeline writes into the failure queue:
`'open'` from the dwl check in `process`, `'xref'` from `check_drawing`. -/
inductive Reason
  | openDwg
  | xref
  deriving DecidableEq, Repr

/-- Result of the external xref check as `check_drawing` parses it:
either the regex failed to match (indeterminate) or it matched a total
xref count. -/
inductive CheckResult
  | indeterminate
  | xrefCount (n : Nat)
  deriving DecidableEq, Repr

/-- Outcome of `DrawingProcessor.check_drawing` (pipeline.py:168-200) for one
drawing, as a function of the parsed console output. -/
inductive CheckOutcome
  | passed
  | failedXref
  | indeterminate
  deriving DecidableEq, Repr

/-- pipeline.py:189-200: if the `Total Xref(s):` regex does not match,
`check_drawing` returns `False` without touching either queue; a count of 0
puts the drawing on `pass_queue`; a positive count puts
`{'dwg': drawing, 'reason': 'xref'}` on `fail_queue`. -/
def check_drawing (check : String → CheckResult) (d : String) : CheckOutcome :=
  match check d with
  | CheckResult.indeterminate => CheckOutcome.indeterminate
  | CheckResult.xrefCount 0 => CheckOutcome.passed
  | CheckResult.xrefCount (_ + 1) => CheckOutcome.failedXref

/-- An element of the builders' shared `JoinableQueue`: a drawing name or the
`None` shutdown sentinel. -/
inductive QItem
  | item (d : String)
  | sentinel
  deriving DecidableEq, Repr

/-- Observable actions of one pipeline run: queue puts and callback
invocations, in the order the controller performs them. `crash` marks an
uncaught `TypeError` from invoking a callback that is `None` or whose
parameter count does not match the call. -/
inductive Event
  | failPut (d : String) (r : Reason)
  | failPutNone
  | buildPut (d : String)
  | buildPutNone
  | filterDone
  | buildJoin
  | buildDone
  | errorCb
  | crash
  deriving DecidableEq, Repr

/-- The open-check loop at pipeline.py:105-109:

  for idx, drawing in enumerate(drawings):
      if self.check_open(drawing):
          del drawings[idx]
          self.fail_queue.put(\x7b'dwg': drawing, 'reason': 'open'\x7d)

Python iterates the list by index while `del drawings[idx]` shifts the later
elements left, so the element immediately following a deleted one is never
examined: it stays in the remaining list untested. Returns
`(remaining, removedInOrder)`. -/
def openScan (isOpen : String → Bool) : List String → List String × List String
  | [] => ([], [])
  | [d] => if isOpen d then ([], [d]) else ([d], [])
  | d :: e :: rest =>
    if isOpen d then
      let p := openScan isOpen rest
      (e :: p.1, d :: p.2)
    else
      let p := openScan isOpen (e :: rest)
      (d :: p.1, p.2)

/-- Drawings accepted by validation: the ones surviving the open check whose
external check parsed to zero xrefs (these are put on the build queue). -/
def acceptedOf (isOpen : String → Bool) (check : String → CheckResult)
    (drawings : List String) : List String :=
  (openScan isOpen drawings).1.filter
    (fun d => check_drawing check d == CheckOutcome.passed)

/-- Drawings rejected by validation with their recorded reason: the open-check
removals (reason `'open'`), then the dispatched drawings whose check parsed
to a positive xref count (reason `'xref'`). -/
def rejectedOf (isOpen : String → Bool) (check : String → CheckResult)
    (drawings : List String) : List (String × Reason) :=
  (openScan isOpen drawings).2.map (fun d => (d, Reason.openDwg)) ++
    ((openScan isOpen drawings).1.filter
        (fun d => check_drawing check d == CheckOutcome.failedXref)).map
      (fun d => (d, Reason.xref))

/-- Dispatched drawings whose external check produced unparseable output:
`check_drawing` returns `False` for them and neither queue receives
anything. -/
def indeterminateOf (isOpen : String → Bool) (check : String → CheckResult)
    (drawings : List String) : List String :=
  (openScan isOpen drawings).1.filter
    (fun d => check_drawing check d == CheckOutcome.indeterminate)

/-- Failure-queue puts performed inside the open-check loop, in loop order. -/
def openEvents (removed : List String) : List Event :=
  removed.map (fun d => Event.failPut d Reason.openDwg)

/-- Queue puts performed by the validation pool workers (pipeline.py:194-199),
one sublist per dispatched drawing. Outcomes of distinct workers may
interleave arbitrarily in time; this lists them in input order, which is
adequate for the counting and membership properties proved below. -/
def workerEvents (check : String → CheckResult) (remaining : List String) :
    List Event :=
  (remaining.map (fun d =>
    match check_drawing check d with
    | CheckOutcome.indeterminate => []
    | CheckOutcome.passed => [Event.buildPut d]
    | CheckOutcome.failedXref => [Event.failPut d Reason.xref])).flatten

/-- `DrawingProcessor.filter_complete` (pipeline.py:131-152), the `map_async`
completion callback: put `None` on the fail queue, put one `None` sentinel
per builder on the build queue, invoke the filter callback if supplied,
block on `build_queue.join()`, and invoke the build callback if supplied.
`joinReturns` records whether the join ever returns; the `buildDone` event is
emitted only then (`validFinal`/`acksOf` below characterise when that
happens). -/
def filterCompleteTrace (hasFilterCb hasBuildCb : Bool) (numBuilders : Nat)
    (joinReturns : Bool) : List Event :=
  Event.failPutNone ::
    (List.replicate numBuilders Event.buildPutNone ++
      ((if hasFilterCb then [Event.filterDone] else []) ++
        Event.buildJoin ::
          (if joinReturns then
            (if hasBuildCb then [Event.buildDone] else [])
          else [])))

/-- The early-return branch at pipeline.py:113-116, taken when every drawing
was removed by the open check (or the input was empty):

  if not drawings:
      filter_callback()
      error_callback()
      return

Both calls are unguarded. `filter_callback()` raises `TypeError` if the
callback is `None`. `error_callback()` passes no argument, so it raises
`TypeError` unless the supplied callback takes zero parameters; the
declared type is `Callable[[BaseException], None]` and the GUI registers a
one-parameter lambda (`errorArity = 1`). -/
def earlyTrace (hasFilterCb hasErrorCb : Bool) (errorArity : Nat) :
    List Event :=
  if hasFilterCb then
    Event.filterDone ::
      (if hasErrorCb then
        (if errorArity = 0 then [Event.errorCb] else [Event.crash])
      else [Event.crash])
  else [Event.crash]

/-- `DrawingProcessor.process` (pipeline.py:85-129): run the open-check loop,
then either take the early-return branch (no drawings left) or dispatch the
remaining drawings to the validation pool, whose completion callback is
`filter_complete`. -/
def processTrace (isOpen : String → Bool) (check : String → CheckResult)
    (hasFilterCb hasBuildCb hasErrorCb : Bool) (errorArity numBuilders : Nat)
    (joinReturns : Bool) (drawings : List String) : List Event :=
  openEvents (openScan isOpen drawings).2 ++
    (if (openScan isOpen drawings).1.isEmpty then
      earlyTrace hasFilterCb hasErrorCb errorArity
    else
      workerEvents check (openScan isOpen drawings).1 ++
        filterCompleteTrace hasFilterCb hasBuildCb numBuilders joinReturns)

/-- `Builder.build_drawing` (pipeline.py:245-257) runs the build script via
`subprocess.check_call`, which returns 0 on success and raises
`CalledProcessError` on any nonzero exit status. -/
def build_drawing (exitCode : String → Nat) (d : String) : Except Unit Nat :=
  if exitCode d = 0 then Except.ok 0 else Except.error ()

/-- Net effect of one builder process on the dequeue sequence it observed. -/
structure RunResult where
  built : List String
  acks : Nat
  exited : Bool
  crashed : Bool
  deriving DecidableEq, Repr

/-- `Builder.run` (pipeline.py:229-243): loop pulling from the queue; a `None`
sentinel is acknowledged (`task_done`) and the loop breaks; a drawing is
built and then acknowledged — but `build_drawing` raises on a nonzero exit
status, and the exception is uncaught, so the worker process dies without
acknowledging that item and dequeues nothing further. -/
def builderRun (exitCode : String → Nat) : List QItem → RunResult
  | [] => ⟨[], 0, false, false⟩
  | QItem.sentinel :: _ => ⟨[], 1, true, false⟩
  | QItem.item d :: rest =>
    match build_drawing exitCode d with
    | Except.error _ => ⟨[], 0, false, true⟩
    | Except.ok _ =>
      let r := builderRun exitCode rest
      ⟨d :: r.built, r.acks + 1, r.exited, r.crashed⟩

/-- A dequeue sequence one builder can actually observe: the worker loop only
continues past an element when it is a drawing whose build action exited 0,
so every element except possibly the last is such a drawing. -/
def builderSeqOk (exitCode : String → Nat) : List QItem → Bool
  | [] => true
  | [_] => true
  | QItem.sentinel :: _ :: _ => false
  | QItem.item d :: x :: rest =>
    (exitCode d == 0) && builderSeqOk exitCode (x :: rest)

/-- The builder process has terminated: it either broke out of its loop on a
sentinel or died on a `CalledProcessError`. -/
def stoppedB (exitCode : String → Nat) (L : List QItem) : Bool :=
  (builderRun exitCode L).exited || (builderRun exitCode L).crashed

/-- Contents of the build queue over a whole run, in FIFO enqueue order: the
accepted drawings (all enqueued before `filter_complete` runs), then one
`None` sentinel per builder. -/
def queueContents (accepted : List String) (numBuilders : Nat) : List QItem :=
  accepted.map QItem.item ++ List.replicate numBuilders QItem.sentinel

/-- Total `task_done` count over a run: `build_queue.join()` returns exactly
when this reaches the number of elements put on the queue. -/
def acksOf (exitCode : String → Nat) (S : List (List QItem)) : Nat :=
  (S.map (fun L => (builderRun exitCode L).acks)).sum

/-- A final state of the build phase: `S` lists, per builder, the dequeue
sequence that builder observed over the run.

* each queue element is dequeued by at most one builder (counts of the
  combined dequeues are bounded by the queue contents);
* every per-builder sequence is observable (`builderSeqOk`);
* no further progress is possible: every builder has terminated, or the
  queue has been fully drained (a non-terminated builder blocks in
  `queue.get()` forever only when the queue is empty);
* FIFO order: the sentinels are enqueued after every accepted drawing, so if
  any builder dequeued a sentinel the drawings must all have been dequeued
  already. -/
def validFinal (exitCode : String → Nat) (Q : List QItem)
    (S : List (List QItem)) : Prop :=
  (∀ x ∈ S.flatten, S.flatten.count x ≤ Q.count x) ∧
    (∀ L ∈ S, builderSeqOk exitCode L = true) ∧
    ((∀ L ∈ S, stoppedB exitCode L = true) ∨ S.flatten.length = Q.length) ∧
    (0 < S.flatten.count QItem.sentinel →
      ∀ x ∈ Q, x ≠ QItem.sentinel → Q.count x ≤ S.flatten.count x)

/-- pipeline.py:118: `self.pool = mp.Pool()`. `multiprocessing.Pool` with no
`processes` argument creates `os.cpu_count()` worker processes, independent
of how many drawings are being dispatched. -/
def validationPoolSize (cpuCount : Nat) (_numItems : Nat) : Nat := cpuCount

/-- Possible results of `MultiProcessingHandler.emit` (main.py:108-115). -/
inductive EmitOutcome
  | sent
  | handledError
  | raisedInterrupt
  deriving DecidableEq, Repr

/-- `MultiProcessingHandler.emit` (main.py:108-115): format the record and
`put_nowait` it on the transport queue; re-raise `KeyboardInterrupt` and
`SystemExit`; any other failure in formatting or enqueueing is swallowed by
the bare `except`, which routes it to `logging`'s `handleError`. The
enqueue is `put_nowait`, so on a saturated queue it fails immediately
instead of blocking. -/
def emit (interrupt formatFails sendFails : Bool) : EmitOutcome :=
  if interrupt then EmitOutcome.raisedInterrupt
  else if formatFails then EmitOutcome.handledError
  else if sendFails then EmitOutcome.handledError
  else EmitOutcome.sent

/-- State of a `MultiProcessingHandler` relevant to `close` (main.py:117-123):
the `_is_closed` flag plus counters for how many times the receive thread
was joined (the bounded 5-second wait) and how many times the wrapped sink
handler was closed. -/
structure HandlerState where
  isClosed : Bool
  joinWaits : Nat
  sinkCloses : Nat
  deriving DecidableEq, Repr

/-- `MultiProcessingHandler.close` (main.py:117-123): a no-op when already
closed; otherwise set `_is_closed`, join the receive thread with a 5.0
second timeout, and close the wrapped sink handler. -/
def close (s : HandlerState) : HandlerState :=
  if s.isClosed then s
  else
    { isClosed := true, joinWaits := s.joinWaits + 1,
      sinkCloses := s.sinkCloses + 1 }

instance validFinalDec (e : String → Nat) (Q : List QItem)
    (S : List (List QItem)) : Decidable (validFinal e Q S) := by
  unfold validFinal
  infer_instance

/-- The open-check loop only rearranges the input: the removed drawings
followed by the remaining ones are a permutation of the original list. -/
theorem openScan_perm (isOpen : String → Bool) :
    (l : List String) → List.Perm ((openScan isOpen l).2 ++ (openScan isOpen l).1) l
  | [] => by simp [openScan]
  | [d] => by by_cases h : isOpen d <;> simp [openScan, h]
  | d :: e :: rest => by
    by_cases h : isOpen d
    · have ih := openScan_perm isOpen rest
      simp only [openScan, h, if_true, List.cons_append]
      exact List.Perm.cons d (List.Perm.trans List.perm_middle (List.Perm.cons e ih))
    · have ih := openScan_perm isOpen (e :: rest)
      simp only [openScan, h, if_false]
      exact List.Perm.trans List.perm_middle (List.Perm.cons d ih)

theorem openScan_length (isOpen : String → Bool) (l : List String) :
    (openScan isOpen l).1.length + (openScan isOpen l).2.length = l.length := by
  have h := (openScan_perm isOpen l).length_eq
  rw [List.length_append] at h
  omega

/-- Each dispatched drawing lands in exactly one of the three
`check_drawing` outcome classes. -/
theorem check_outcome_split (check : String → CheckResult) (l : List String) :
    (l.filter (fun d => check_drawing check d == CheckOutcome.passed)).length +
      (l.filter (fun d => check_drawing check d == CheckOutcome.failedXref)).length +
      (l.filter (fun d => check_drawing check d == CheckOutcome.indeterminate)).length =
      l.length := by
  induction l with
  | nil => simp
  | cons d rest ih =>
    rcases hcd : check_drawing check d <;>
      simp only [List.filter_cons, hcd, List.length_cons] <;>
      simp <;> omega

theorem mem_openEvents {removed : List String} {x : Event}
    (hx : x ∈ openEvents removed) : ∃ d, x = Event.failPut d Reason.openDwg := by
  rcases List.mem_map.1 hx with ⟨d, _, rfl⟩
  exact ⟨d, rfl⟩

theorem mem_workerEvents {check : String → CheckResult} {remaining : List String}
    {x : Event} (hx : x ∈ workerEvents check remaining) :
    (∃ d, x = Event.buildPut d) ∨ (∃ d, x = Event.failPut d Reason.xref) := by
  induction remaining with
  | nil => simp [workerEvents] at hx
  | cons d rest ih =>
    rw [workerEvents, List.map_cons, List.flatten_cons] at hx
    rcases List.mem_append.1 hx with h | h
    · rcases hcd : check_drawing check d <;> rw [hcd] at h <;> simp at h
      · exact Or.inl ⟨d, h⟩
      · exact Or.inr ⟨d, h⟩
    · exact ih h

theorem not_mem_openEvents {x : Event}
    (h : ∀ d, x ≠ Event.failPut d Reason.openDwg) (removed : List String) :
    x ∉ openEvents removed := by
  intro hx
  rcases mem_openEvents hx with ⟨d, rfl⟩
  exact h d rfl

theorem not_mem_workerEvents {x : Event} (h₁ : ∀ d, x ≠ Event.buildPut d)
    (h₂ : ∀ d, x ≠ Event.failPut d Reason.xref) (check : String → CheckResult)
    (remaining : List String) : x ∉ workerEvents check remaining := by
  intro hx
  rcases mem_workerEvents hx with ⟨d, rfl⟩ | ⟨d, rfl⟩
  · exact h₁ d rfl
  · exact h₂ d rfl

theorem count_replicate_same {α : Type} [DecidableEq α] (N : Nat) (x : α) :
    (List.replicate N x).count x = N := by
  induction N with
  | zero => simp
  | succ n ih => simp [List.replicate_succ, List.count_cons, ih]

theorem count_replicate_of_ne {α : Type} [DecidableEq α] (N : Nat) {x y : α}
    (h : y ≠ x) : (List.replicate N x).count y = 0 := by
  rw [List.count_eq_zero]
  intro hy
  exact h (List.eq_of_mem_replicate hy)

theorem count_pos_of_mem {x : QItem} {l : List QItem} (h : x ∈ l) :
    0 < l.count x := by
  rcases Nat.eq_zero_or_pos (l.count x) with h0 | hpos
  · exact absurd h (List.count_eq_zero.1 h0)
  · exact hpos

theorem mem_of_count_pos {x : QItem} {l : List QItem} (h : 0 < l.count x) :
    x ∈ l := by
  by_contra hx
  rw [List.count_eq_zero.2 hx] at h
  exact Nat.lt_irrefl 0 h

theorem count_flatten_eq (S : List (List QItem)) (x : QItem) :
    S.flatten.count x = (S.map (fun L => L.count x)).sum := by
  induction S with
  | nil => simp
  | cons L T ih => simp [List.flatten_cons, List.count_append, ih]

theorem length_flatten_eq (S : List (List QItem)) :
    S.flatten.length = (S.map (fun L => L.length)).sum := by
  induction S with
  | nil => simp
  | cons L T ih => simp [List.flatten_cons, ih]

theorem count_map_item (accepted : List String) (d : String) :
    (accepted.map QItem.item).count (QItem.item d) = accepted.count d := by
  induction accepted with
  | nil => simp
  | cons a l ih => simp [List.count_cons, ih]

theorem count_map_item_sentinel (accepted : List String) :
    (accepted.map QItem.item).count QItem.sentinel = 0 := by
  induction accepted with
  | nil => simp
  | cons a l ih => simp [List.count_cons, ih]

theorem count_queue_sentinel (accepted : List String) (N : Nat) :
    (queueContents accepted N).count QItem.sentinel = N := by
  rw [queueContents, List.count_append, count_map_item_sentinel,
    count_replicate_same]
  omega

theorem count_queue_item (accepted : List String) (N : Nat) (d : String) :
    (queueContents accepted N).count (QItem.item d) = accepted.count d := by
  rw [queueContents, List.count_append, count_map_item,
    count_replicate_of_ne N (by simp)]
  omega

theorem length_queue (accepted : List String) (N : Nat) :
    (queueContents accepted N).length = accepted.length + N := by
  simp [queueContents]

theorem builderRun_acks_le (e : String → Nat) :
    (L : List QItem) → (builderRun e L).acks ≤ L.length
  | [] => by simp [builderRun]
  | QItem.sentinel :: rest => by simp [builderRun]
  | QItem.item d :: rest => by
    by_cases h : e d = 0
    · have ih := builderRun_acks_le e rest
      simp only [builderRun, build_drawing, h, if_true, List.length_cons]
      omega
    · simp [builderRun, build_drawing, h]

theorem builderRun_acks_eq (e : String → Nat) :
    (L : List QItem) → builderSeqOk e L = true →
      (∀ d, QItem.item d ∈ L → e d = 0) → (builderRun e L).acks = L.length
  | [], _, _ => by simp [builderRun]
  | [QItem.sentinel], _, _ => by simp [builderRun]
  | [QItem.item d], _, hz => by
    have h := hz d (by simp)
    simp [builderRun, build_drawing, h]
  | QItem.sentinel :: x :: rest, hok, _ => by simp [builderSeqOk] at hok
  | QItem.item d :: x :: rest, hok, hz => by
    have hd : e d = 0 := hz d (by simp)
    have hok2 : builderSeqOk e (x :: rest) = true := by
      simp only [builderSeqOk, Bool.and_eq_true] at hok
      exact hok.2
    have ih := builderRun_acks_eq e (x :: rest) hok2
      (fun a ha => hz a (List.mem_cons_of_mem _ ha))
    simp only [List.length_cons] at ih
    simp only [builderRun, build_drawing, hd, if_true, List.length_cons]
    omega

theorem seqOk_count_sentinel_le (e : String → Nat) :
    (L : List QItem) → builderSeqOk e L = true → L.count QItem.sentinel ≤ 1
  | [], _ => by simp
  | [QItem.sentinel], _ => by simp
  | [QItem.item d], _ => by simp [List.count_cons]
  | QItem.sentinel :: x :: rest, hok => by simp [builderSeqOk] at hok
  | QItem.item d :: x :: rest, hok => by
    have hok2 : builderSeqOk e (x :: rest) = true := by
      simp only [builderSeqOk, Bool.and_eq_true] at hok
      exact hok.2
    have ih := seqOk_count_sentinel_le e (x :: rest) hok2
    simpa [List.count_cons] using ih

theorem builderRun_exited (e : String → Nat) :
    (L : List QItem) → builderSeqOk e L = true →
      (∀ d, QItem.item d ∈ L → e d = 0) → QItem.sentinel ∈ L →
      (builderRun e L).exited = true
  | [], _, _, hmem => by simp at hmem
  | QItem.sentinel :: rest, _, _, _ => by simp [builderRun]
  | [QItem.item d], _, _, hmem => by simp at hmem
  | QItem.item d :: x :: rest, hok, hz, hmem => by
    have hd : e d = 0 := hz d (by simp)
    have hok2 : builderSeqOk e (x :: rest) = true := by
      simp only [builderSeqOk, Bool.and_eq_true] at hok
      exact hok.2
    have hmem2 : QItem.sentinel ∈ x :: rest := by
      rcases List.mem_cons.1 hmem with h | h
      · exact absurd h (by simp)
      · exact h
    have ih := builderRun_exited e (x :: rest) hok2
      (fun a ha => hz a (List.mem_cons_of_mem _ ha)) hmem2
    simpa [builderRun, build_drawing, hd] using ih

theorem stopped_sentinel_mem (e : String → Nat) :
    (L : List QItem) → builderSeqOk e L = true →
      (∀ d, QItem.item d ∈ L → e d = 0) → stoppedB e L = true →
      QItem.sentinel ∈ L
  | [], _, _, hs => by simp [stoppedB, builderRun] at hs
  | QItem.sentinel :: rest, _, _, _ => by simp
  | [QItem.item d], _, hz, hs => by
    have hd : e d = 0 := hz d (by simp)
    simp [stoppedB, builderRun, build_drawing, hd] at hs
  | QItem.item d :: x :: rest, hok, hz, hs => by
    have hd : e d = 0 := hz d (by simp)
    have hok2 : builderSeqOk e (x :: rest) = true := by
      simp only [builderSeqOk, Bool.and_eq_true] at hok
      exact hok.2
    have hs2 : stoppedB e (x :: rest) = true := by
      simpa [stoppedB, builderRun, build_drawing, hd] using hs
    exact List.mem_cons_of_mem _
      (stopped_sentinel_mem e (x :: rest) hok2
        (fun a ha => hz a (List.mem_cons_of_mem _ ha)) hs2)

theorem sum_map_le_length {α : Type} (f : α → Nat) :
    (S : List α) → (∀ L ∈ S, f L ≤ 1) → (S.map f).sum ≤ S.length
  | [], _ => by simp
  | a :: T, hle => by
    have h1 := hle a (by simp)
    have h2 := sum_map_le_length f T (fun L hL => hle L (by simp [hL]))
    simp only [List.map_cons, List.sum_cons, List.length_cons]
    omega

theorem sum_map_all_one {α : Type} (f : α → Nat) :
    (S : List α) → (∀ L ∈ S, f L = 1) → (S.map f).sum = S.length
  | [], _ => by simp
  | a :: T, hone => by
    have h1 := hone a (by simp)
    have h2 := sum_map_all_one f T (fun L hL => hone L (by simp [hL]))
    simp only [List.map_cons, List.sum_cons, List.length_cons]
    omega

theorem all_one_of_sum_eq {α : Type} (f : α → Nat) :
    (S : List α) → (∀ L ∈ S, f L ≤ 1) → (S.map f).sum = S.length →
      ∀ L ∈ S, f L = 1
  | [], _, _, L, hL => by simp at hL
  | a :: T, hle, hsum, L, hL => by
    have h1 : f a ≤ 1 := hle a (by simp)
    have h2 : (T.map f).sum ≤ T.length :=
      sum_map_le_length f T (fun M hM => hle M (by simp [hM]))
    have hsum2 : f a + (T.map f).sum = T.length + 1 := by
      simpa [Nat.add_comm] using hsum
    have hTa : (T.map f).sum = T.length := by omega
    rcases List.mem_cons.1 hL with rfl | h
    · omega
    · exact all_one_of_sum_eq f T (fun M hM => hle M (by simp [hM])) hTa L h

/-- Core drain theorem for the sentinel shutdown protocol: in any final
state of a run in which every enqueued drawing's build action exits 0,
every builder dequeued exactly one sentinel and exited through it, the
queue was fully drained (each element dequeued by exactly one builder),
and the total `task_done` count equals the number of puts, so
`build_queue.join()` returns. -/
theorem drain (e : String → Nat) (accepted : List String) (N : Nat)
    (S : List (List QItem)) (hN : 0 < N) (hS : S.length = N)
    (hz : ∀ d ∈ accepted, e d = 0)
    (hvf : validFinal e (queueContents accepted N) S) :
    (∀ L ∈ S, L.count QItem.sentinel = 1 ∧ (builderRun e L).exited = true) ∧
      List.Perm S.flatten (queueContents accepted N) ∧
      acksOf e S = (queueContents accepted N).length := by
  obtain ⟨hcmem, hok, hfin, hfifo⟩ := hvf
  have hcall : ∀ x, S.flatten.count x ≤ (queueContents accepted N).count x := by
    intro x
    by_cases hx : x ∈ S.flatten
    · exact hcmem x hx
    · rw [List.count_eq_zero.2 hx]
      exact Nat.zero_le _
  have hzL : ∀ L ∈ S, ∀ d, QItem.item d ∈ L → e d = 0 := by
    intro L hL d hd
    have hmem : QItem.item d ∈ S.flatten := List.mem_flatten.2 ⟨L, hL, hd⟩
    have h2 : 0 < (queueContents accepted N).count (QItem.item d) :=
      Nat.lt_of_lt_of_le (count_pos_of_mem hmem) (hcall _)
    rw [count_queue_item] at h2
    have : d ∈ accepted := by
      by_contra hda
      rw [List.count_eq_zero.2 hda] at h2
      exact Nat.lt_irrefl 0 h2
    exact hz d this
  have hperm : List.Perm S.flatten (queueContents accepted N) := by
    rcases hfin with hstop | hlen
    · have hone : ∀ L ∈ S, L.count QItem.sentinel = 1 := by
        intro L hL
        have hmem := stopped_sentinel_mem e L (hok L hL) (hzL L hL) (hstop L hL)
        have hle := seqOk_count_sentinel_le e L (hok L hL)
        have hpos := count_pos_of_mem hmem
        omega
      have hsent : S.flatten.count QItem.sentinel = N := by
        rw [count_flatten_eq, sum_map_all_one _ S hone, hS]
      refine List.perm_iff_count.2 ?_
      intro x
      cases x with
      | sentinel => rw [hsent, count_queue_sentinel]
      | item d =>
        refine Nat.le_antisymm (hcall _) ?_
        by_cases hd : QItem.item d ∈ queueContents accepted N
        · exact hfifo (by omega) _ hd (by simp)
        · rw [List.count_eq_zero.2 hd]
          exact Nat.zero_le _
    · have hsub : List.Subperm S.flatten (queueContents accepted N) :=
        List.subperm_ext_iff.2 hcmem
      exact hsub.perm_of_length_le (Nat.le_of_eq hlen.symm)
  have hone : ∀ L ∈ S, L.count QItem.sentinel = 1 := by
    have hsent : S.flatten.count QItem.sentinel = N := by
      rw [hperm.count_eq, count_queue_sentinel]
    have hcount : (S.map (fun L => L.count QItem.sentinel)).sum = S.length := by
      rw [← count_flatten_eq, hsent, hS]
    exact all_one_of_sum_eq _ S
      (fun L hL => seqOk_count_sentinel_le e L (hok L hL)) hcount
  refine ⟨?_, hperm, ?_⟩
  · intro L hL
    refine ⟨hone L hL, ?_⟩
    have hmem : QItem.sentinel ∈ L := by
      have := hone L hL
      exact mem_of_count_pos (by omega)
    exact builderRun_exited e L (hok L hL) (hzL L hL) hmem
  · rw [acksOf]
    have hacks : S.map (fun L => (builderRun e L).acks) =
        S.map (fun L => L.length) := by
      apply List.map_congr_left
      intro L hL
      exact builderRun_acks_eq e L (hok L hL) (hzL L hL)
    rw [hacks, ← length_flatten_eq, hperm.length_eq]

theorem takeWhile_append_of_all {α : Type} (p : α → Bool) :
    (l₁ l₂ : List α) → (∀ x ∈ l₁, p x = true) →
      (l₁ ++ l₂).takeWhile p = l₁ ++ l₂.takeWhile p
  | [], l₂, _ => by simp
  | a :: t, l₂, h => by
    have ha := h a (by simp)
    simp [List.takeWhile_cons, ha,
      takeWhile_append_of_all p t l₂ (fun x hx => h x (by simp [hx]))]

theorem takeWhile_append_stop {α : Type} (p : α → Bool) :
    (l₁ : List α) → (∀ x ∈ l₁, p x = true) → (a : α) → p a = false →
      (l₂ : List α) → (l₁ ++ a :: l₂).takeWhile p = l₁
  | [], _, a, ha, l₂ => by simp [List.takeWhile_cons, ha]
  | b :: t, h, a, ha, l₂ => by
    have hb := h b (by simp)
    simp [List.takeWhile_cons, hb,
      takeWhile_append_stop p t (fun x hx => h x (by simp [hx])) a ha l₂]

theorem dropWhile_append_of_all {α : Type} (p : α → Bool) :
    (l₁ l₂ : List α) → (∀ x ∈ l₁, p x = true) →
      (l₁ ++ l₂).dropWhile p = l₂.dropWhile p
  | [], l₂, _ => by simp
  | a :: t, l₂, h => by
    have ha := h a (by simp)
    simp [List.dropWhile_cons, ha,
      dropWhile_append_of_all p t l₂ (fun x hx => h x (by simp [hx]))]

/-- Unfolding of `processTrace` on the dispatch path (some drawings survive
the open check). -/
theorem processTrace_dispatch (isOpen : String → Bool) (check : String → CheckResult)
    (hasF hasB hasE : Bool) (errorArity N : Nat) (jr : Bool) (drawings : List String)
    (hne : (openScan isOpen drawings).1.isEmpty = false) :
    processTrace isOpen check hasF hasB hasE errorArity N jr drawings =
      openEvents (openScan isOpen drawings).2 ++
        (workerEvents check (openScan isOpen drawings).1 ++
          filterCompleteTrace hasF hasB N jr) := by
  rw [processTrace, hne]
  simp

/-- Unfolding of `processTrace` on the early-return path (pipeline.py:113-116,
every drawing removed by the open check or no input at all). -/
theorem processTrace_early (isOpen : String → Bool) (check : String → CheckResult)
    (hasF hasB hasE : Bool) (errorArity N : Nat) (jr : Bool) (drawings : List String)
    (he : (openScan isOpen drawings).1.isEmpty = true) :
    processTrace isOpen check hasF hasB hasE errorArity N jr drawings =
      openEvents (openScan isOpen drawings).2 ++ earlyTrace hasF hasE errorArity := by
  rw [processTrace, he]
  simp

theorem count_openEvents_zero {x : Event}
    (h : ∀ d, x ≠ Event.failPut d Reason.openDwg) (removed : List String) :
    (openEvents removed).count x = 0 :=
  List.count_eq_zero.2 (not_mem_openEvents h removed)

theorem count_workerEvents_zero {x : Event} (h₁ : ∀ d, x ≠ Event.buildPut d)
    (h₂ : ∀ d, x ≠ Event.failPut d Reason.xref) (check : String → CheckResult)
    (remaining : List String) : (workerEvents check remaining).count x = 0 :=
  List.count_eq_zero.2 (not_mem_workerEvents h₁ h₂ check remaining)

theorem fct_count_buildPutNone (hasF hasB : Bool) (N : Nat) (jr : Bool) :
    (filterCompleteTrace hasF hasB N jr).count Event.buildPutNone = N := by
  cases hasF <;> cases hasB <;> cases jr <;>
    simp [filterCompleteTrace, List.count_append, List.count_cons,
      count_replicate_same]

theorem fct_count_buildDone (hasF : Bool) (N : Nat) :
    (filterCompleteTrace hasF true N true).count Event.buildDone = 1 := by
  cases hasF <;>
    simp [filterCompleteTrace, List.count_append, List.count_cons,
      count_replicate_of_ne N (show Event.buildDone ≠ Event.buildPutNone by simp)]

theorem fct_count_failPutNone (hasF hasB : Bool) (N : Nat) (jr : Bool) :
    (filterCompleteTrace hasF hasB N jr).count Event.failPutNone = 1 := by
  cases hasF <;> cases hasB <;> cases jr <;>
    simp [filterCompleteTrace, List.count_append, List.count_cons,
      count_replicate_of_ne N (show Event.failPutNone ≠ Event.buildPutNone by simp)]

theorem mem_earlyTrace {hasF hasE : Bool} {errorArity : Nat} {x : Event}
    (hx : x ∈ earlyTrace hasF hasE errorArity) :
    x = Event.filterDone ∨ x = Event.errorCb ∨ x = Event.crash := by
  cases hasF <;> cases hasE <;> by_cases h0 : errorArity = 0 <;>
    simp [earlyTrace, h0] at hx <;> tauto

/-- C1 (amended): after validation completes, the accepted count plus the
rejected count plus the count of dispatched drawings whose external check was
indeterminate equals the input count — an indeterminate check leaves its
drawing with no outcome at all, so accepted + rejected alone falls short of
`len(items)` whenever an indeterminate occurs (see `c1_counterexample`). For
duplicate-free inputs no drawing is both accepted and rejected. -/
theorem c1_every_item_one_outcome (isOpen : String → Bool)
    (check : String → CheckResult) (drawings : List String) :
    (acceptedOf isOpen check drawings).length +
        (rejectedOf isOpen check drawings).length +
        (indeterminateOf isOpen check drawings).length = drawings.length ∧
      (drawings.Nodup → ∀ d ∈ acceptedOf isOpen check drawings,
        ∀ r : Reason, (d, r) ∉ rejectedOf isOpen check drawings) := by
  constructor
  · rw [acceptedOf, rejectedOf, indeterminateOf, List.length_append,
      List.length_map, List.length_map]
    have h1 := check_outcome_split check (openScan isOpen drawings).1
    have h2 := openScan_length isOpen drawings
    omega
  · intro hnodup d hd r hdr
    have hdrem : d ∈ (openScan isOpen drawings).1 := List.mem_of_mem_filter hd
    have hdpass : check_drawing check d = CheckOutcome.passed := by
      have := List.of_mem_filter hd
      simpa using this
    rcases List.mem_append.1 hdr with h | h
    · rcases List.mem_map.1 h with ⟨a, ha, heq⟩
      have had : a = d := congrArg Prod.fst heq
      subst had
      have hnd : ((openScan isOpen drawings).2 ++ (openScan isOpen drawings).1).Nodup :=
        (openScan_perm isOpen drawings).nodup_iff.2 hnodup
      rcases List.nodup_append.1 hnd with ⟨_, _, hdisj⟩
      exact hdisj ha hdrem
    · rcases List.mem_map.1 h with ⟨a, ha, heq⟩
      have had : a = d := congrArg Prod.fst heq
      subst had
      have hfail : check_drawing check a = CheckOutcome.failedXref := by
        have := List.of_mem_filter ha
        simpa using this
      rw [hdpass] at hfail
      exact absurd hfail (by simp)

/-- C1 counterexample: one drawing, not open, whose external check output is
unparseable. Validation completes (the worker returns `False`, the
`map_async` callback still fires) yet the drawing is neither accepted nor
rejected, so `len(accepted) + len(rejected) = 0 ≠ 1 = len(items)`. -/
theorem c1_counterexample :
    ¬((acceptedOf (fun _ => false) (fun _ => CheckResult.indeterminate) ["a"]).length +
        (rejectedOf (fun _ => false) (fun _ => CheckResult.indeterminate) ["a"]).length =
        (["a"] : List String).length) := by decide

/-- C1 witness: a two-drawing run in which one drawing passes and one fails
the xref check, evaluated through `c1_every_item_one_outcome`. -/
theorem c1_witness :
    (acceptedOf (fun _ => false)
          (fun d => if d = "a" then CheckResult.xrefCount 0 else CheckResult.xrefCount 1)
          ["a", "b"]).length +
        (rejectedOf (fun _ => false)
          (fun d => if d = "a" then CheckResult.xrefCount 0 else CheckResult.xrefCount 1)
          ["a", "b"]).length +
        (indeterminateOf (fun _ => false)
          (fun d => if d = "a" then CheckResult.xrefCount 0 else CheckResult.xrefCount 1)
          ["a", "b"]).length = 2 ∧
      ("a", Reason.xref) ∉ rejectedOf (fun _ => false)
        (fun d => if d = "a" then CheckResult.xrefCount 0 else CheckResult.xrefCount 1)
        ["a", "b"] :=
  ⟨(c1_every_item_one_outcome (fun _ => false)
      (fun d => if d = "a" then CheckResult.xrefCount 0 else CheckResult.xrefCount 1)
      ["a", "b"]).1,
    (c1_every_item_one_outcome (fun _ => false)
      (fun d => if d = "a" then CheckResult.xrefCount 0 else CheckResult.xrefCount 1)
      ["a", "b"]).2 (by decide) "a" (by decide) Reason.xref⟩

/-- C2 (amended): an indeterminate external check does NOT abort the run. No
call to the error callback is made anywhere on the dispatch path, the run
proceeds through `filter_complete` so `onBuildDone` can still fire, and the
indeterminate drawing is silently dropped: it is recorded neither as
accepted nor as rejected. -/
theorem c2_indeterminate_silent (isOpen : String → Bool)
    (check : String → CheckResult) (errorArity N : Nat) (drawings : List String)
    (d : String) (hnodup : drawings.Nodup)
    (hd : d ∈ (openScan isOpen drawings).1)
    (hind : check_drawing check d = CheckOutcome.indeterminate) :
    Event.errorCb ∉ processTrace isOpen check true true true errorArity N true drawings ∧
      Event.buildDone ∈ processTrace isOpen check true true true errorArity N true drawings ∧
      d ∉ acceptedOf isOpen check drawings ∧
      ∀ r : Reason, (d, r) ∉ rejectedOf isOpen check drawings := by
  have hne : (openScan isOpen drawings).1.isEmpty = false := by
    cases hrem : (openScan isOpen drawings).1 with
    | nil => rw [hrem] at hd; simp at hd
    | cons a t => simp [hrem]
  rw [processTrace_dispatch isOpen check true true true errorArity N true drawings hne]
  refine ⟨?_, ?_, ?_, ?_⟩
  · intro hmem
    rcases List.mem_append.1 hmem with h | h
    · exact not_mem_openEvents (by simp) _ h
    · rcases List.mem_append.1 h with h2 | h2
      · exact not_mem_workerEvents (by simp) (by simp) _ _ h2
      · simp [filterCompleteTrace, List.mem_replicate] at h2
  · simp [filterCompleteTrace]
  · intro hmem
    have := List.of_mem_filter hmem
    rw [hind] at this
    simp at this
  · intro r hdr
    rcases List.mem_append.1 hdr with h | h
    · rcases List.mem_map.1 h with ⟨a, ha, heq⟩
      have had : a = d := congrArg Prod.fst heq
      subst had
      have hnd : ((openScan isOpen drawings).2 ++ (openScan isOpen drawings).1).Nodup :=
        (openScan_perm isOpen drawings).nodup_iff.2 hnodup
      rcases List.nodup_append.1 hnd with ⟨_, _, hdisj⟩
      exact hdisj ha hd
    · rcases List.mem_map.1 h with ⟨a, ha, heq⟩
      have had : a = d := congrArg Prod.fst heq
      subst had
      have hfail : check_drawing check a = CheckOutcome.failedXref := by
        have := List.of_mem_filter ha
        simpa using this
      rw [hind] at hfail
      exact absurd hfail (by simp)

/-- C2 counterexample: a single not-open drawing whose check is
indeterminate. The claim says `onError` fires and `onBuildDone` does not; in
the code no error callback is invoked and the run completes — with zero
accepted drawings the build queue holds only the sentinel, a final schedule
exists in which the single builder acknowledges it, and `join()` returns,
so `onBuildDone` does fire. -/
theorem c2_counterexample :
    Event.errorCb ∉ processTrace (fun _ => false) (fun _ => CheckResult.indeterminate)
        true true true 1 1 true ["a"] ∧
      Event.buildDone ∈ processTrace (fun _ => false) (fun _ => CheckResult.indeterminate)
        true true true 1 1 true ["a"] ∧
      validFinal (fun _ => 0)
        (queueContents (acceptedOf (fun _ => false) (fun _ => CheckResult.indeterminate) ["a"]) 1)
        [[QItem.sentinel]] ∧
      acksOf (fun _ => 0) [[QItem.sentinel]] =
        (queueContents (acceptedOf (fun _ => false) (fun _ => CheckResult.indeterminate) ["a"]) 1).length := by
  decide

/-- C2 witness: the amended theorem applied to a concrete run with two
builders. -/
theorem c2_witness :
    Event.errorCb ∉ processTrace (fun _ => false) (fun _ => CheckResult.indeterminate)
        true true true 1 2 true ["a"] ∧
      Event.buildDone ∈ processTrace (fun _ => false) (fun _ => CheckResult.indeterminate)
        true true true 1 2 true ["a"] ∧
      ("a", Reason.xref) ∉ rejectedOf (fun _ => false) (fun _ => CheckResult.indeterminate) ["a"] :=
  ⟨(c2_indeterminate_silent (fun _ => false) (fun _ => CheckResult.indeterminate)
      1 2 ["a"] "a" (by decide) (by decide) (by decide)).1,
    (c2_indeterminate_silent (fun _ => false) (fun _ => CheckResult.indeterminate)
      1 2 ["a"] "a" (by decide) (by decide) (by decide)).2.1,
    (c2_indeterminate_silent (fun _ => false) (fun _ => CheckResult.indeterminate)
      1 2 ["a"] "a" (by decide) (by decide) (by decide)).2.2.2 Reason.xref⟩

/-- C3: the claim is right about the intent but the code has a bug on the
early-return path (pipeline.py:113-116). When validation removes every
drawing before dispatch (including `items = []`), `process` calls
`filter_callback()` and then `error_callback()` with no argument — but the
error callback is declared `Callable[[BaseException], None]` and the GUI
registers a one-parameter lambda, so the call raises `TypeError`: after
`onFilterDone`, neither `onBuildDone` nor `onError` fires and the run does
not complete normally. Evaluated here at both failing inputs: the empty
list, and a single drawing that the open check removes. -/
theorem c3_early_return_crash :
    processTrace (fun _ => false) (fun _ => CheckResult.xrefCount 0)
        true true true 1 1 true ([] : List String) =
        [Event.filterDone, Event.crash] ∧
      processTrace (fun _ => true) (fun _ => CheckResult.xrefCount 0)
        true true true 1 1 true ["a"] =
        [Event.failPut "a" Reason.openDwg, Event.filterDone, Event.crash] ∧
      Event.errorCb ∉ processTrace (fun _ => true) (fun _ => CheckResult.xrefCount 0)
        true true true 1 1 true ["a"] ∧
      Event.buildDone ∉ processTrace (fun _ => true) (fun _ => CheckResult.xrefCount 0)
        true true true 1 1 true ["a"] := by
  decide

theorem fct_split (hasB : Bool) (N : Nat) (jr : Bool) :
    filterCompleteTrace true hasB N jr =
      [Event.failPutNone] ++
        (List.replicate N Event.buildPutNone ++
          (Event.filterDone ::
            (Event.buildJoin ::
              (if jr then (if hasB then [Event.buildDone] else []) else [])))) := by
  simp [filterCompleteTrace]

theorem fct_takeWhile (hasB : Bool) (N : Nat) (jr : Bool) :
    (filterCompleteTrace true hasB N jr).takeWhile
        (fun ev => ev != Event.filterDone) =
      Event.failPutNone :: List.replicate N Event.buildPutNone := by
  have hrep : ∀ x ∈ List.replicate N Event.buildPutNone,
      ((fun ev => ev != Event.filterDone) x) = true := by
    intro x hx
    rw [List.eq_of_mem_replicate hx]
    decide
  rw [fct_split,
    takeWhile_append_of_all (fun ev => ev != Event.filterDone) [Event.failPutNone] _
      (by intro x hx; simp at hx; subst hx; decide),
    takeWhile_append_stop (fun ev => ev != Event.filterDone) _ hrep Event.filterDone
      (by decide)]
  simp

theorem fct_dropWhile (hasB : Bool) (N : Nat) (jr : Bool) :
    (filterCompleteTrace true hasB N jr).dropWhile
        (fun ev => ev != Event.failPutNone) = filterCompleteTrace true hasB N jr := by
  rw [filterCompleteTrace, List.dropWhile_cons]
  simp

/-- C4 (amended): provided every accepted drawing's build action exits 0 (no
builder dies on a `CalledProcessError`), the run with `N` builders pushes
exactly `N` shutdown sentinels after validation completes, every builder
dequeues exactly one sentinel and exits through it, the total `task_done`
count reaches the number of puts so `build_queue.join()` returns, and the
build-done callback fires exactly once. Without the zero-exit proviso the
original claim is false — see `c4_counterexample`. -/
theorem c4_sentinel_invariant (isOpen : String → Bool) (check : String → CheckResult)
    (e : String → Nat) (errorArity N : Nat) (drawings : List String)
    (S : List (List QItem))
    (hne : (openScan isOpen drawings).1.isEmpty = false)
    (hN : 0 < N) (hS : S.length = N)
    (hz : ∀ d ∈ acceptedOf isOpen check drawings, e d = 0)
    (hvf : validFinal e (queueContents (acceptedOf isOpen check drawings) N) S) :
    (processTrace isOpen check true true true errorArity N true drawings).count
        Event.buildPutNone = N ∧
      (∀ L ∈ S, L.count QItem.sentinel = 1 ∧ (builderRun e L).exited = true) ∧
      acksOf e S = (queueContents (acceptedOf isOpen check drawings) N).length ∧
      (processTrace isOpen check true true true errorArity N true drawings).count
        Event.buildDone = 1 := by
  obtain ⟨hone, _, hacks⟩ := drain e (acceptedOf isOpen check drawings) N S hN hS hz hvf
  refine ⟨?_, hone, hacks, ?_⟩
  · rw [processTrace_dispatch isOpen check true true true errorArity N true drawings hne,
      List.count_append, List.count_append,
      count_openEvents_zero (by simp), count_workerEvents_zero (by simp) (by simp),
      fct_count_buildPutNone]
    omega
  · rw [processTrace_dispatch isOpen check true true true errorArity N true drawings hne,
      List.count_append, List.count_append,
      count_openEvents_zero (by simp), count_workerEvents_zero (by simp) (by simp),
      fct_count_buildDone]

/-- C4 counterexample: one builder, one accepted drawing whose build action
exits 1. `subprocess.check_call` raises, the worker dies before ever seeing
a sentinel (`exited = false`, zero sentinels observed), and the done-count
can never reach the put-count, so `join()` blocks and the build-done
callback never fires — refuting the unconditional claim. -/
theorem c4_counterexample :
    validFinal (fun _ => 1) (queueContents ["a"] 1) [[QItem.item "a"]] ∧
      ([QItem.item "a"] : List QItem).count QItem.sentinel = 0 ∧
      (builderRun (fun _ => 1) [QItem.item "a"]).exited = false ∧
      (builderRun (fun _ => 1) [QItem.item "a"]).crashed = true ∧
      acksOf (fun _ => 1) [[QItem.item "a"]] ≠ (queueContents ["a"] 1).length := by
  decide

/-- C4 witness: a run with two builders and one accepted drawing whose build
exits 0, through `c4_sentinel_invariant`. -/
theorem c4_witness :
    (processTrace (fun _ => false) (fun _ => CheckResult.xrefCount 0)
        true true true 1 2 true ["a"]).count Event.buildPutNone = 2 ∧
      acksOf (fun _ => 0) [[QItem.item "a", QItem.sentinel], [QItem.sentinel]] =
        (queueContents (acceptedOf (fun _ => false) (fun _ => CheckResult.xrefCount 0) ["a"])
          2).length ∧
      (processTrace (fun _ => false) (fun _ => CheckResult.xrefCount 0)
        true true true 1 2 true ["a"]).count Event.buildDone = 1 ∧
      ([QItem.item "a", QItem.sentinel] : List QItem).count QItem.sentinel = 1 :=
  ⟨(c4_sentinel_invariant (fun _ => false) (fun _ => CheckResult.xrefCount 0) (fun _ => 0)
      1 2 ["a"] [[QItem.item "a", QItem.sentinel], [QItem.sentinel]]
      (by decide) (by decide) (by decide) (by decide) (by decide)).1,
    (c4_sentinel_invariant (fun _ => false) (fun _ => CheckResult.xrefCount 0) (fun _ => 0)
      1 2 ["a"] [[QItem.item "a", QItem.sentinel], [QItem.sentinel]]
      (by decide) (by decide) (by decide) (by decide) (by decide)).2.2.1,
    (c4_sentinel_invariant (fun _ => false) (fun _ => CheckResult.xrefCount 0) (fun _ => 0)
      1 2 ["a"] [[QItem.item "a", QItem.sentinel], [QItem.sentinel]]
      (by decide) (by decide) (by decide) (by decide) (by decide)).2.2.2,
    ((c4_sentinel_invariant (fun _ => false) (fun _ => CheckResult.xrefCount 0) (fun _ => 0)
      1 2 ["a"] [[QItem.item "a", QItem.sentinel], [QItem.sentinel]]
      (by decide) (by decide) (by decide) (by decide) (by decide)).2.1
      [QItem.item "a", QItem.sentinel] (by decide)).1⟩

/-- C5: `onFilterDone` always fires strictly before `onBuildDone` (no
build-done event ever precedes the filter-done event in the run trace), the
build-done event is emitted only when `build_queue.join()` returns, and the
join returning — the done-count reaching the put-count — forces every
enqueued element (accepted drawings and sentinels alike) to have been
dequeued and acknowledged by exactly one builder. -/
theorem c5_filter_before_build (isOpen : String → Bool) (check : String → CheckResult)
    (e : String → Nat) (errorArity N : Nat) (jr : Bool) (drawings : List String) :
    (Event.buildDone ∈ processTrace isOpen check true true true errorArity N jr drawings →
      Event.filterDone ∈ processTrace isOpen check true true true errorArity N jr drawings ∧
        Event.buildDone ∉
          (processTrace isOpen check true true true errorArity N jr drawings).takeWhile
            (fun ev => ev != Event.filterDone)) ∧
      (jr = false →
        Event.buildDone ∉ processTrace isOpen check true true true errorArity N jr drawings) ∧
      (∀ S : List (List QItem), (∀ L ∈ S, builderSeqOk e L = true) →
        (∀ x ∈ S.flatten, S.flatten.count x ≤
          (queueContents (acceptedOf isOpen check drawings) N).count x) →
        acksOf e S = (queueContents (acceptedOf isOpen check drawings) N).length →
        List.Perm S.flatten (queueContents (acceptedOf isOpen check drawings) N)) := by
  have hopen : ∀ x ∈ openEvents (openScan isOpen drawings).2,
      ((fun ev => ev != Event.filterDone) x) = true := by
    intro x hx
    rcases mem_openEvents hx with ⟨d, rfl⟩
    simp
  have hworker : ∀ x ∈ workerEvents check (openScan isOpen drawings).1,
      ((fun ev => ev != Event.filterDone) x) = true := by
    intro x hx
    rcases mem_workerEvents hx with ⟨d, rfl⟩ | ⟨d, rfl⟩ <;> simp
  refine ⟨?_, ?_, ?_⟩
  · intro hmem
    cases hie : (openScan isOpen drawings).1.isEmpty with
    | true =>
      rw [processTrace_early isOpen check true true true errorArity N jr drawings hie] at hmem
      rcases List.mem_append.1 hmem with h | h
      · exact absurd h (not_mem_openEvents (by simp) _)
      · rcases mem_earlyTrace h with h2 | h2 | h2 <;> simp at h2
    | false =>
      rw [processTrace_dispatch isOpen check true true true errorArity N jr drawings hie]
      constructor
      · simp [filterCompleteTrace]
      · rw [takeWhile_append_of_all _ _ _ hopen, takeWhile_append_of_all _ _ _ hworker,
          fct_takeWhile]
        intro hmem2
        rcases List.mem_append.1 hmem2 with h | h
        · exact not_mem_openEvents (by simp) _ h
        · rcases List.mem_append.1 h with h2 | h2
          · exact not_mem_workerEvents (by simp) (by simp) _ _ h2
          · rcases List.mem_cons.1 h2 with h3 | h3
            · simp at h3
            · rw [List.eq_of_mem_replicate h3] at hmem2
              simp at hmem2
              exact absurd (List.eq_of_mem_replicate h3) (by simp)
  · intro hjr hmem
    subst hjr
    cases hie : (openScan isOpen drawings).1.isEmpty with
    | true =>
      rw [processTrace_early isOpen check true true true errorArity N false drawings hie] at hmem
      rcases List.mem_append.1 hmem with h | h
      · exact absurd h (not_mem_openEvents (by simp) _)
      · rcases mem_earlyTrace h with h2 | h2 | h2 <;> simp at h2
    | false =>
      rw [processTrace_dispatch isOpen check true true true errorArity N false drawings hie] at hmem
      rcases List.mem_append.1 hmem with h | h
      · exact not_mem_openEvents (by simp) _ h
      · rcases List.mem_append.1 h with h2 | h2
        · exact not_mem_workerEvents (by simp) (by simp) _ _ h2
        · simp [filterCompleteTrace, List.mem_replicate] at h2
  · intro S hok hcmem hacks
    have h1 : acksOf e S ≤ S.flatten.length := by
      rw [acksOf, length_flatten_eq]
      exact List.sum_le_sum (fun L _ => builderRun_acks_le e L)
    have hsub : List.Subperm S.flatten
        (queueContents (acceptedOf isOpen check drawings) N) :=
      List.subperm_ext_iff.2 hcmem
    have h2 : S.flatten.length ≤
        (queueContents (acceptedOf isOpen check drawings) N).length := hsub.length_le
    exact hsub.perm_of_length_le (by omega)

/-- C5 witness: a concrete completed run — one accepted drawing, one builder
— through `c5_filter_before_build`. -/
theorem c5_witness :
    (Event.filterDone ∈ processTrace (fun _ => false) (fun _ => CheckResult.xrefCount 0)
        true true true 1 1 true ["a"] ∧
      Event.buildDone ∉
        (processTrace (fun _ => false) (fun _ => CheckResult.xrefCount 0)
          true true true 1 1 true ["a"]).takeWhile (fun ev => ev != Event.filterDone)) ∧
      List.Perm ([[QItem.item "a", QItem.sentinel]] : List (List QItem)).flatten
        (queueContents (acceptedOf (fun _ => false) (fun _ => CheckResult.xrefCount 0) ["a"]) 1) :=
  ⟨(c5_filter_before_build (fun _ => false) (fun _ => CheckResult.xrefCount 0) (fun _ => 0)
      1 1 true ["a"]).1 (by decide),
    (c5_filter_before_build (fun _ => false) (fun _ => CheckResult.xrefCount 0) (fun _ => 0)
      1 1 true ["a"]).2.2 [[QItem.item "a", QItem.sentinel]]
      (by decide) (by decide) (by decide)⟩

/-- C6 (amended): a build worker acknowledges exactly the items it
successfully built plus — if it reached one — its shutdown sentinel. A
nonzero exit status is NOT swallowed: `subprocess.check_call` raises
`CalledProcessError`, the worker dies (`crashed`, never `exited`), and the
failing item is never acknowledged. -/
theorem c6_ack_only_on_success (e : String → Nat) (L : List QItem) :
    (builderRun e L).acks =
        (builderRun e L).built.length +
          (if (builderRun e L).exited then 1 else 0) ∧
      ((builderRun e L).crashed = true → (builderRun e L).exited = false) := by
  induction L with
  | nil => simp [builderRun]
  | cons x rest ih =>
    cases x with
    | sentinel => simp [builderRun]
    | item d =>
      by_cases h : e d = 0
      · refine ⟨?_, ?_⟩
        · have h1 := ih.1
          simp only [builderRun, build_drawing, h, if_true, List.length_cons]
          omega
        · intro hc
          have hc2 : (builderRun e rest).crashed = true := by
            simpa [builderRun, build_drawing, h] using hc
          have := ih.2 hc2
          simpa [builderRun, build_drawing, h] using this
      · simp [builderRun, build_drawing, h]

/-- C6 counterexample: a worker dequeues a drawing whose build action exits 1
and then would dequeue a sentinel. The claim says the item is acknowledged
regardless of exit status; in fact the worker performs zero `task_done`
calls, builds nothing, and crashes without reaching the sentinel. -/
theorem c6_counterexample :
    (builderRun (fun _ => 1) [QItem.item "a", QItem.sentinel]).acks = 0 ∧
      (builderRun (fun _ => 1) [QItem.item "a", QItem.sentinel]).crashed = true ∧
      (builderRun (fun _ => 1) [QItem.item "a", QItem.sentinel]).built = [] ∧
      (builderRun (fun _ => 1) [QItem.item "a", QItem.sentinel]).exited = false := by
  decide

/-- C6 witness: the amended theorem at a concrete successful dequeue
sequence. -/
theorem c6_witness :
    (builderRun (fun _ => 0) [QItem.item "a", QItem.sentinel]).acks =
        (builderRun (fun _ => 0) [QItem.item "a", QItem.sentinel]).built.length +
          (if (builderRun (fun _ => 0) [QItem.item "a", QItem.sentinel]).exited then 1 else 0) ∧
      ((builderRun (fun _ => 0) [QItem.item "a", QItem.sentinel]).crashed = true →
        (builderRun (fun _ => 0) [QItem.item "a", QItem.sentinel]).exited = false) :=
  c6_ack_only_on_success (fun _ => 0) [QItem.item "a", QItem.sentinel]

/-- C7 (amended): the validation stage pool is ephemeral — a fresh
`mp.Pool()` per `process()` call — but its size is the host cpu count,
independent of the number of items; it is not `min(workerCap, len(items))`. -/
theorem c7_pool_size_is_cpu_count (cpuCount numItems : Nat) :
    validationPoolSize cpuCount numItems = cpuCount := rfl

/-- C7 counterexample: with 4 cpus and a single work item the pool has 4
workers, not `min(4, 1) = 1` as the claim states. -/
theorem c7_counterexample : validationPoolSize 4 1 ≠ min 4 1 := by decide

/-- C8: when the emitting worker is not being interrupted by
`KeyboardInterrupt`/`SystemExit`, `MultiProcessingHandler.emit` never
propagates a logging failure: a formatting error or a failed
(non-blocking) `put_nowait` is swallowed and routed to `handleError`, and
otherwise the event is enqueued. -/
theorem c8_emit_never_propagates (formatFails sendFails : Bool) :
    emit false formatFails sendFails ≠ EmitOutcome.raisedInterrupt ∧
      (emit false formatFails sendFails = EmitOutcome.sent ∨
        emit false formatFails sendFails = EmitOutcome.handledError) := by
  cases formatFails <;> cases sendFails <;> decide

/-- C8 witness: a saturated transport queue (failed `put_nowait`) is handled,
not propagated. -/
theorem c8_witness :
    emit false false true ≠ EmitOutcome.raisedInterrupt ∧
      (emit false false true = EmitOutcome.sent ∨
        emit false false true = EmitOutcome.handledError) :=
  c8_emit_never_propagates false true

/-- C9: on every dispatching run the failure queue receives exactly one
`None` terminator, placed by `filter_complete` after every rejection of the
run (no `failPut` event occurs at or after the terminator in the trace), so
the GUI's `iter(queue.get, None)` drain loop terminates; on the
early-return path (all drawings removed by the open check) no terminator is
ever enqueued. -/
theorem c9_fail_queue_terminator (isOpen : String → Bool) (check : String → CheckResult)
    (errorArity N : Nat) (jr : Bool) (drawings : List String) :
    ((openScan isOpen drawings).1.isEmpty = false →
      (processTrace isOpen check true true true errorArity N jr drawings).count
          Event.failPutNone = 1 ∧
        ∀ d r, Event.failPut d r ∉
          (processTrace isOpen check true true true errorArity N jr drawings).dropWhile
            (fun ev => ev != Event.failPutNone)) ∧
      ((openScan isOpen drawings).1.isEmpty = true →
        Event.failPutNone ∉ processTrace isOpen check true true true errorArity N jr drawings) := by
  constructor
  · intro hne
    rw [processTrace_dispatch isOpen check true true true errorArity N jr drawings hne]
    have hopen : ∀ x ∈ openEvents (openScan isOpen drawings).2,
        ((fun ev => ev != Event.failPutNone) x) = true := by
      intro x hx
      rcases mem_openEvents hx with ⟨d, rfl⟩
      simp
    have hworker : ∀ x ∈ workerEvents check (openScan isOpen drawings).1,
        ((fun ev => ev != Event.failPutNone) x) = true := by
      intro x hx
      rcases mem_workerEvents hx with ⟨d, rfl⟩ | ⟨d, rfl⟩ <;> simp
    constructor
    · rw [List.count_append, List.count_append,
        count_openEvents_zero (by simp), count_workerEvents_zero (by simp) (by simp),
        fct_count_failPutNone]
    · intro d r hmem
      rw [dropWhile_append_of_all _ _ _ hopen, dropWhile_append_of_all _ _ _ hworker,
        fct_dropWhile] at hmem
      simp [filterCompleteTrace, List.mem_replicate] at hmem
  · intro he
    rw [processTrace_early isOpen check true true true errorArity N jr drawings he]
    intro hmem
    rcases List.mem_append.1 hmem with h | h
    · exact not_mem_openEvents (by simp) _ h
    · rcases mem_earlyTrace h with h2 | h2 | h2 <;> simp at h2

/-- C9 witness: a run with one passing and one xref-failing drawing, through
`c9_fail_queue_terminator`. -/
theorem c9_witness :
    (processTrace (fun _ => false)
        (fun d => if d = "a" then CheckResult.xrefCount 0 else CheckResult.xrefCount 1)
        true true true 1 1 true ["a", "b"]).count Event.failPutNone = 1 ∧
      Event.failPut "b" Reason.xref ∉
        (processTrace (fun _ => false)
          (fun d => if d = "a" then CheckResult.xrefCount 0 else CheckResult.xrefCount 1)
          true true true 1 1 true ["a", "b"]).dropWhile
          (fun ev => ev != Event.failPutNone) :=
  ⟨((c9_fail_queue_terminator (fun _ => false)
      (fun d => if d = "a" then CheckResult.xrefCount 0 else CheckResult.xrefCount 1)
      1 1 true ["a", "b"]).1 (by decide)).1,
    ((c9_fail_queue_terminator (fun _ => false)
      (fun d => if d = "a" then CheckResult.xrefCount 0 else CheckResult.xrefCount 1)
      1 1 true ["a", "b"]).1 (by decide)).2 "b" Reason.xref⟩

/-- C10: `MultiProcessingHandler.close` is idempotent. The first call on an
open handler marks it closed, performs exactly one bounded (5-second
timeout) join of the receive thread and one close of the wrapped sink;
a call on an already-closed handler changes nothing — no second wait, no
second release — so `close ∘ close = close`. -/
theorem c10_close_idempotent (s : HandlerState) :
    close (close s) = close s ∧
      (s.isClosed = false →
        (close s).isClosed = true ∧ (close s).joinWaits = s.joinWaits + 1 ∧
          (close s).sinkCloses = s.sinkCloses + 1) ∧
      (s.isClosed = true → close s = s) := by
  by_cases h : s.isClosed = true
  · simp [close, h]
  · have h2 : s.isClosed = false := by
      cases hb : s.isClosed
      · rfl
      · exact absurd hb h
    simp [close, h2]

/-- C10 witness: an open handler with fresh counters, through
`c10_close_idempotent`. -/
theorem c10_witness :
    close (close ⟨false, 0, 0⟩) = close ⟨false, 0, 0⟩ ∧
      ((⟨false, 0, 0⟩ : HandlerState).isClosed = false →
        (close ⟨false, 0, 0⟩).isClosed = true ∧
          (close ⟨false, 0, 0⟩).joinWaits = (⟨false, 0, 0⟩ : HandlerState).joinWaits + 1 ∧
          (close ⟨false, 0, 0⟩).sinkCloses = (⟨false, 0, 0⟩ : HandlerState).sinkCloses + 1) ∧
      ((⟨false, 0, 0⟩ : HandlerState).isClosed = true →
        close ⟨false, 0, 0⟩ = (⟨false, 0, 0⟩ : HandlerState)) :=
  c10_close_idempotent ⟨false, 0, 0⟩

end Batchjobber
